import Mathlib

/-!
Verification of the Estate Deli conversational webhook handler (app.py).

The Python source is shallowly embedded: message strings become `List Char`,
Python string operations (`lower`, `strip`, `title`, `split`, `in`,
`startswith`, `int(...)`, `re.findall(r'\d+', ...)`) become executable Lean
functions over `List Char`, and the stateful webhook handler becomes a pure
function from (store, collections, sender, message, clock) to a new state and
a structured reply.
-/

/-- Message text is modelled as a list of characters (ASCII scope). -/
abbrev Text := List Char

/-- Python `str` whitespace for `strip()` / `split()`: space, tab, newline,
carriage return, vertical tab, form feed (ASCII scope). -/
def pyIsSpace (c : Char) : Bool :=
  c == ' ' || c == '\t' || c == '\n' || c == '\r' || c == '\x0b' || c == '\x0c'

/-- Python `str.lower()` (ASCII scope): lower-case every character. -/
def pyLower (t : Text) : Text := t.map Char.toLower

/-- Python `str.strip()`: drop leading and trailing whitespace. -/
def pyStrip (t : Text) : Text :=
  ((t.dropWhile pyIsSpace).reverse.dropWhile pyIsSpace).reverse

/-- Python `str.title()` helper: the flag records whether the previous
character was alphabetic. -/
def pyTitleAux : Bool → Text → Text
  | _, [] => []
  | prevAlpha, c :: rest =>
    (if c.isAlpha then (if prevAlpha then c.toLower else c.toUpper) else c)
      :: pyTitleAux c.isAlpha rest

/-- Python `str.title()` (ASCII scope). -/
def pyTitle (t : Text) : Text := pyTitleAux false t

/-- Numeric value of a list of decimal digit characters (as `int` does). -/
def digitsVal (t : Text) : Nat := t.foldl (fun a c => a * 10 + (c.toNat - 48)) 0

/-- Parse a nonempty all-digit string to a `Nat`. -/
def parseNatDigits (t : Text) : Option Nat :=
  if !t.isEmpty && t.all Char.isDigit then some (digitsVal t) else none

/-- Python `int(s)` on ASCII text: strip whitespace, optional sign, digits;
`none` models a raised `ValueError`. -/
def pyInt (t : Text) : Option Int :=
  match pyStrip t with
  | '+' :: rest => (parseNatDigits rest).map Int.ofNat
  | '-' :: rest => (parseNatDigits rest).map (fun n => -(Int.ofNat n))
  | s => (parseNatDigits s).map Int.ofNat

/-- Python substring test `sub in t` (contiguous occurrence). -/
def pyContains (sub : Text) : Text → Bool
  | [] => sub.isPrefixOf []
  | c :: rest => sub.isPrefixOf (c :: rest) || pyContains sub rest

/-- Python `t.startswith(sub)`. -/
def pyStartsWith (sub t : Text) : Bool := sub.isPrefixOf t

/-- Split at the first occurrence of `sep`: returns the text before and the
text after that occurrence, or `none` when `sep` does not occur. -/
def splitFirst (sep : Text) : Text → Option (Text × Text)
  | [] => if sep.isPrefixOf ([] : Text) then some ([], []) else none
  | c :: rest =>
    if sep.isPrefixOf (c :: rest) then some ([], (c :: rest).drop sep.length)
    else
      match splitFirst sep rest with
      | some (a, b) => some (c :: a, b)
      | none => none

/-- Fuelled worker for Python `str.split(sep)`: splits at every
(non-overlapping, left-to-right) occurrence of `sep`. -/
def pySplitF (sep : Text) : Nat → Text → List Text
  | _, [] => [[]]
  | 0, l => [l]
  | n + 1, c :: rest =>
    if sep.isPrefixOf (c :: rest) then
      [] :: pySplitF sep n ((c :: rest).drop sep.length)
    else
      match pySplitF sep n rest with
      | [] => [[c]]
      | s :: ss => (c :: s) :: ss

/-- Python `str.split(sep)` for a nonempty separator. -/
def pySplit (sep t : Text) : List Text := pySplitF sep t.length t

/-- First whitespace-delimited token of a text (`s.split()[0]`); `none`
models the `IndexError` on an all-whitespace text. -/
def firstToken (t : Text) : Option Text :=
  let s := t.dropWhile pyIsSpace
  if s.isEmpty then none else some (s.takeWhile (fun c => !pyIsSpace c))


/-! ## Configuration data from app.py -/

/-- `TABLES = 6` (app.py line 51). -/
def TABLES : Int := 6

/-- `SEATS_PER_TABLE = 4` (app.py line 52). -/
def SEATS_PER_TABLE : Int := 4

/-- `TOTAL_SEATS = TABLES * SEATS_PER_TABLE` (app.py line 53). -/
def TOTAL_SEATS : Int := TABLES * SEATS_PER_TABLE

/-- `USER_STATE_TIMEOUT = 300` seconds (app.py line 57). -/
def USER_STATE_TIMEOUT : Int := 300

/-- `CAKE_FLAVOURS` (app.py lines 60-64). -/
def CAKE_FLAVOURS : List Text :=
  ["Chocolate", "Vanilla", "Strawberry", "Red Velvet", "Black Forest",
   "Butterscotch", "Pineapple", "Mango", "Coffee", "Caramel",
   "Lemon", "Fruit Cake", "Truffle", "Oreo", "Cheesecake"].map String.toList

/-- The keys of `MENU_DATA` (app.py lines 67-118), in insertion order. -/
def MENU_KEYS : List Text :=
  ["coffee", "matcha", "signature hot beverages", "signature iced beverages",
   "mocktails", "snacks", "desserts"].map String.toList

/-- `BOOKING_KEYWORDS` (app.py lines 121-125). -/
def BOOKING_KEYWORDS : List Text :=
  ["book", "reserve", "reservation", "table", "seat", "booking",
   "book table", "reserve table", "table booking", "make reservation",
   "want to book", "need table", "table for"].map String.toList

/-- `CAKE_KEYWORDS` (app.py lines 128-131). -/
def CAKE_KEYWORDS : List Text :=
  ["cake", "order cake", "cake order", "want cake", "need cake",
   "birthday cake", "custom cake", "cake delivery", "order a cake"].map String.toList

/-- `REVIEW_KEYWORDS` (app.py lines 134-138). -/
def REVIEW_KEYWORDS : List Text :=
  ["review", "feedback", "rating", "comment", "experience",
   "service", "food was", "place is", "recommend", "loved",
   "great", "excellent", "good", "bad", "poor"].map String.toList

/-- The literal marker `"review:"`. -/
def revMarker : Text := "review:".toList

/-- The literal marker `"rating:"`. -/
def ratMarker : Text := "rating:".toList

/-! ## Helper functions from app.py -/

/-- `is_number` (app.py lines 203-209): `int(text.strip())` succeeds. -/
def is_number (t : Text) : Bool := (pyInt t).isSome

/-- `extract_number` (app.py lines 211-217): value of the first maximal digit
run found by `re.findall(r'\d+', text)`, if any. -/
def extract_number : Text → Option Nat
  | [] => none
  | c :: rest =>
    if c.isDigit then some (digitsVal (c :: rest.takeWhile Char.isDigit))
    else extract_number rest

/-- `contains_keywords` (app.py lines 219-222). -/
def contains_keywords (t : Text) (keywords : List Text) : Bool :=
  keywords.any (fun k => pyContains k (pyLower t))

/-- `is_cake_flavour` (app.py lines 224-227). -/
def is_cake_flavour (t : Text) : Bool :=
  CAKE_FLAVOURS.any (fun f => pyContains (pyLower f) (pyStrip (pyLower t)))

/-- The `for flavour in CAKE_FLAVOURS` loop of `get_cake_flavour_from_text`:
first flavour (in list order) whose lower-cased form occurs in the text. -/
def flavourLoop : List Text → Text → Option Text
  | [], _ => none
  | f :: fs, tl => if pyContains (pyLower f) tl then some f else flavourLoop fs tl

/-- `get_cake_flavour_from_text` (app.py lines 229-236). -/
def get_cake_flavour_from_text (t : Text) : Text :=
  match flavourLoop CAKE_FLAVOURS (pyStrip (pyLower t)) with
  | some f => f
  | none => pyStrip t

/-- Intent labels returned by `smart_intent_detection`. -/
inductive Intent where
  | booking | cake | review | number | menu_category | unknown
deriving DecidableEq, Repr

/-- `smart_intent_detection` (app.py lines 250-274). -/
def smart_intent_detection (t : Text) : Intent :=
  if contains_keywords t BOOKING_KEYWORDS then .booking
  else if contains_keywords t CAKE_KEYWORDS then .cake
  else if contains_keywords t REVIEW_KEYWORDS
      || pyContains revMarker (pyStrip (pyLower t)) then .review
  else if is_number t then .number
  else if MENU_KEYS.contains (pyStrip (pyLower t)) then .menu_category
  else .unknown

/-! ## Persistent records and the review parser -/

/-- A persisted booking record (app.py lines 619-625). -/
structure Booking where
  customer : Text
  people : Int
  date : Text
  time : Text
  timestamp : Int
deriving DecidableEq, Repr

/-- A persisted cake order record (app.py lines 540-547). -/
structure CakeOrder where
  customer : Text
  flavour : Text
  custom_message : Text
  date : Text
  time : Text
  timestamp : Int
deriving DecidableEq, Repr

/-- A persisted review record (app.py lines 341-346). -/
structure Review where
  customer : Text
  review : Text
  rating : Option Int
  timestamp : Int
deriving DecidableEq, Repr

/-- The rating parse of `save_review` (app.py lines 329-334): first token of
the rating part, parsed as `int`, discarded unless within 1..5. -/
def parseRating (rating_part : Text) : Option Int :=
  match firstToken rating_part with
  | none => none
  | some tok =>
    match pyInt tok with
    | none => none
    | some r => if r < 1 || 5 < r then none else some r

/-- The text/rating extraction of `save_review` (app.py lines 320-339),
operating on the lower-cased message via Python `str.split`. -/
def parseReview (message_text : Text) : Text × Option Int :=
  let lower := pyLower message_text
  if pyContains revMarker lower then
    let parts := pySplit revMarker lower
    if 1 < parts.length then
      let review_part := parts.getD 1 []
      if pyContains ratMarker review_part then
        let rparts := pySplit ratMarker review_part
        (pyStrip (rparts.getD 0 []), parseRating (pyStrip (rparts.getD 1 [])))
      else (pyStrip review_part, none)
    else ("No comment".toList, none)
  else (pyStrip message_text, none)

/-- `save_review` (app.py lines 319-350): builds the record and appends it to
the reviews collection. -/
def save_review (sender : Text) (message_text : Text) (now : Int)
    (reviews : List Review) : Review × List Review :=
  let p := parseReview message_text
  let record : Review := ⟨sender, p.1, p.2, now⟩
  (record, reviews ++ [record])

/-! ## Availability checker -/

/-- The accumulation loop of `check_table_availability` (app.py lines
379-383): seats already booked for the (date, time) slot, compared after
`lower().strip()` on both sides. -/
def seatSum (date time : Text) : List Booking → Int
  | [] => 0
  | b :: rest =>
    (if pyStrip (pyLower b.date) == pyStrip (pyLower date)
        && pyStrip (pyLower b.time) == pyStrip (pyLower time)
     then b.people else 0) + seatSum date time rest

/-- `check_table_availability` (app.py lines 376-385). -/
def check_table_availability (date time : Text) (people : Int)
    (bookings : List Booking) : Bool × Int :=
  let available := TOTAL_SEATS - seatSum date time bookings
  (people ≤ available, available)


/-! ## Sessions, the session store, and expiry -/

/-- The flow tag stored in a session. `confirm_booking` appears in the spec's
data model; the code only ever stores `booking` and `cake`. -/
inductive FlowTag where
  | booking | cake | confirm_booking
deriving DecidableEq, Repr

/-- The `"timestamp"` entry of a session dict: it may be absent, present but
not ISO-parseable, or a parsed time (seconds). -/
inductive TsStamp where
  | missing
  | unparseable
  | parsed (t : Int)
deriving DecidableEq, Repr

/-- One per-sender conversation state dict (`user_state[sender]`). -/
structure Session where
  flow : FlowTag
  step : Nat
  people : Option Int
  date : Option Text
  time : Option Text
  flavour : Option Text
  custom_message : Option Text
  timestamp : TsStamp
deriving DecidableEq, Repr

/-- The session store `user_state`, as an association list with unique keys. -/
abbrev Store := List (Text × Session)

/-- Dict lookup `user_state.get(sender)` / `sender in user_state`. -/
def lookupStore : Store → Text → Option Session
  | [], _ => none
  | (k, v) :: rest, sender => if k == sender then some v else lookupStore rest sender

/-- Dict write `user_state[sender] = s`. -/
def storeSet : Store → Text → Session → Store
  | [], sender, s => [(sender, s)]
  | (k, v) :: rest, sender, s =>
    if k == sender then (sender, s) :: rest else (k, v) :: storeSet rest sender s

/-- Dict removal `user_state.pop(sender, None)`. -/
def storePop (store : Store) (sender : Text) : Store :=
  store.filter (fun p => !(p.1 == sender))

/-- The per-session test of `clean_expired_states` (app.py lines 189-196):
a session is collected as expired when its timestamp parses and the
`timedelta.seconds` component (the sub-day remainder `(now - t) mod 86400`)
exceeds the timeout, or when parsing raises; a session with no `"timestamp"`
key is never collected. -/
def expiredQ (now : Int) (s : Session) : Bool :=
  match s.timestamp with
  | .missing => false
  | .unparseable => true
  | .parsed t => decide (USER_STATE_TIMEOUT < (now - t).emod 86400)

/-- `clean_expired_states` (app.py lines 186-198). -/
def clean_expired_states (now : Int) (store : Store) : Store :=
  store.filter (fun p => !expiredQ now p.2)

/-! ## Replies

Outbound message texts are modelled as a structured datatype: one constructor
per distinct reply template in the webhook handler, carrying the data
interpolated into the template. -/

/-- The reply produced by one webhook turn. -/
inductive Reply where
  | ownerReport
  | ownerReviews (today : Bool)
  | cakeStartPrompt
  | cakeAskCustom
  | cakeAskPickupDate
  | cakeAskPickupTime
  | cakeConfirmed (flavour custom_message date time : Text)
  | bookingAskPeople
  | bookingRetryPeople
  | bookingAskDate (people : Int)
  | bookingAskTime
  | bookingUnavailable (people : Int) (time date : Text) (available : Int)
  | bookingConfirmed (people : Int) (date time : Text)
  | numberClarify
  | reviewThanks (rating : Option Int)
  | feedbackThanks
  | reviewPrompt
  | menuCategory (category : Text)
  | menuCategories
  | mainMenu
  | hours
  | location
  | cancelledActive
  | cancelledIdle
  | fallback
  | internalError
deriving DecidableEq, Repr

/-! ## Flow engine: booking and cake state machines -/

/-- Result of one booking-flow step: the session to write back (`none` when
the code popped it), the bookings collection, and the reply. -/
structure BkResult where
  session : Option Session
  bookings : List Booking
  reply : Reply
deriving DecidableEq, Repr

/-- The `people_count` computation of booking step 1 (app.py lines 585-590):
`int(message_text.strip())` when the whole text is a number, otherwise the
first digit run anywhere in the text. -/
def parsePeople (t : Text) : Option Int :=
  if is_number t then pyInt t else (extract_number t).map Int.ofNat

/-- The booking flow handler (app.py lines 582-654), one message at a time
against the current session. A step outside 1-3 leaves `reply_text` unbound
in the source (raising at the send), modelled as `internalError`. -/
def bookingStep (now : Int) (sender : Text) (s : Session) (msg : Text)
    (bookings : List Booking) : BkResult :=
  if s.step = 1 then
    match parsePeople msg with
    | some n =>
      if 0 < n then
        { session := some { s with people := some n, step := 2,
                                   timestamp := .parsed now },
          bookings := bookings,
          reply := .bookingAskDate n }
      else
        { session := some s, bookings := bookings, reply := .bookingRetryPeople }
    | none =>
        { session := some s, bookings := bookings, reply := .bookingRetryPeople }
  else if s.step = 2 then
    { session := some { s with date := some msg, step := 3,
                               timestamp := .parsed now },
      bookings := bookings,
      reply := .bookingAskTime }
  else if s.step = 3 then
    let date := s.date.getD []
    let people := s.people.getD 0
    let avail := check_table_availability date msg people bookings
    if !avail.1 then
      { session := none, bookings := bookings,
        reply := .bookingUnavailable people msg date avail.2 }
    else
      { session := none,
        bookings := bookings ++ [⟨sender, people, date, msg, now⟩],
        reply := .bookingConfirmed people date msg }
  else
    { session := some s, bookings := bookings, reply := .internalError }

/-- Result of one cake-flow step. -/
structure CkResult where
  session : Option Session
  cakes : List CakeOrder
  reply : Reply
deriving DecidableEq, Repr

/-- The negative-acknowledgement tokens of cake step 2 (app.py line 521). -/
def NO_TOKENS : List Text := ["no", "none", "nothing", "nope", "na"].map String.toList

/-- The cake flow handler (app.py lines 507-579). -/
def cakeStep (now : Int) (sender : Text) (s : Session) (msg : Text)
    (cakes : List CakeOrder) : CkResult :=
  if s.step = 1 then
    let flavour := if is_cake_flavour msg then get_cake_flavour_from_text msg
                   else pyTitle msg
    { session := some { s with flavour := some flavour, step := 2,
                               timestamp := .parsed now },
      cakes := cakes,
      reply := .cakeAskCustom }
  else if s.step = 2 then
    let custom := if NO_TOKENS.contains (pyLower msg) then
                    "No custom message".toList
                  else msg
    { session := some { s with custom_message := some custom, step := 3,
                               timestamp := .parsed now },
      cakes := cakes,
      reply := .cakeAskPickupDate }
  else if s.step = 3 then
    { session := some { s with date := some msg, step := 4,
                               timestamp := .parsed now },
      cakes := cakes,
      reply := .cakeAskPickupTime }
  else if s.step = 4 then
    let flavour := s.flavour.getD []
    let custom := s.custom_message.getD "No custom message".toList
    let date := s.date.getD []
    { session := none,
      cakes := cakes ++ [⟨sender, flavour, custom, date, msg, now⟩],
      reply := .cakeConfirmed flavour custom date msg }
  else
    { session := some s, cakes := cakes, reply := .internalError }

/-! ## The webhook dispatcher -/

/-- All process state touched by one webhook call. -/
structure Env where
  owner : Text
  store : Store
  bookings : List Booking
  cakes : List CakeOrder
  reviews : List Review
deriving DecidableEq, Repr

/-- The result of handling one inbound message. -/
structure Outcome where
  env : Env
  reply : Reply
deriving DecidableEq, Repr

/-- A fresh session dict for a flow start: only `flow`, `step`, optionally
`people`, and `timestamp` keys (app.py lines 661, 668, 675, 732, 736). -/
def freshSession (flow : FlowTag) (step : Nat) (people : Option Int)
    (now : Int) : Session :=
  { flow := flow, step := step, people := people, date := none, time := none,
    flavour := none, custom_message := none, timestamp := .parsed now }

/-- Greeting / root-menu tokens (app.py line 708). -/
def GREETINGS : List Text := ["hi", "hello", "hey", "start", "menu", "1"].map String.toList

/-- Opening-hours tokens (app.py line 739). -/
def HOURS_TOKENS : List Text :=
  ["4", "hours", "timing", "time", "open", "opening hours"].map String.toList

/-- Location tokens (app.py line 742). -/
def LOCATION_TOKENS : List Text := ["5", "location", "address", "where"].map String.toList

/-- Cancellation tokens (app.py line 760). -/
def CANCEL_TOKENS : List Text := ["cancel", "reset", "stop", "exit"].map String.toList

/-- The intent-dispatch chain for messages that were not consumed by an
active cake/booking flow (app.py lines 656-792). `msg` is the stripped
message and `normalized` its lower-cased form, exactly as in the source. -/
def intentDispatch (now : Int) (env : Env) (sender msg normalized : Text) :
    Outcome :=
  let intent := smart_intent_detection msg
  if intent = .booking || BOOKING_KEYWORDS.contains normalized then
    { env := { env with store := storeSet env.store sender
                          (freshSession .booking 1 none now) },
      reply := .bookingAskPeople }
  else if intent = .cake || CAKE_KEYWORDS.contains normalized then
    { env := { env with store := storeSet env.store sender
                          (freshSession .cake 1 none now) },
      reply := .cakeStartPrompt }
  else if intent = .number && (lookupStore env.store sender).isNone then
    let n := (pyInt msg).getD 0
    if 0 < n && n ≤ 20 then
      { env := { env with store := storeSet env.store sender
                            (freshSession .booking 2 (some n) now) },
        reply := .bookingAskDate n }
    else
      { env := env, reply := .numberClarify }
  else if intent = .review || pyContains revMarker normalized then
    if pyContains revMarker normalized then
      let saved := save_review sender msg now env.reviews
      { env := { env with reviews := saved.2 },
        reply := .reviewThanks saved.1.rating }
    else if contains_keywords msg REVIEW_KEYWORDS then
      let saved := save_review sender msg now env.reviews
      { env := { env with reviews := saved.2 }, reply := .feedbackThanks }
    else
      { env := env, reply := .reviewPrompt }
  else if intent = .menu_category || MENU_KEYS.contains normalized then
    { env := env, reply := .menuCategory normalized }
  else if GREETINGS.contains normalized then
    if normalized = "1".toList then { env := env, reply := .menuCategories }
    else { env := env, reply := .mainMenu }
  else if normalized = "2".toList then
    { env := { env with store := storeSet env.store sender
                          (freshSession .cake 1 none now) },
      reply := .cakeStartPrompt }
  else if normalized = "3".toList then
    { env := { env with store := storeSet env.store sender
                          (freshSession .booking 1 none now) },
      reply := .bookingAskPeople }
  else if HOURS_TOKENS.contains normalized then
    { env := env, reply := .hours }
  else if LOCATION_TOKENS.contains normalized then
    { env := env, reply := .location }
  else if normalized = "6".toList then
    { env := env, reply := .reviewPrompt }
  else if CANCEL_TOKENS.contains normalized then
    if (lookupStore env.store sender).isSome then
      { env := { env with store := storePop env.store sender },
        reply := .cancelledActive }
    else
      { env := env, reply := .cancelledIdle }
  else
    { env := env, reply := .fallback }

/-- Active-flow dispatch (app.py lines 502-654): an active cake or booking
session consumes the message; any other state falls through to the intent
chain. -/
def flowOrIntent (now : Int) (env : Env) (sender msg normalized : Text) :
    Outcome :=
  match lookupStore env.store sender with
  | some s =>
    if s.flow = .cake then
      let r := cakeStep now sender s msg env.cakes
      { env := { env with
                 store := match r.session with
                          | some s' => storeSet env.store sender s'
                          | none => storePop env.store sender,
                 cakes := r.cakes },
        reply := r.reply }
    else if s.flow = .booking then
      let r := bookingStep now sender s msg env.bookings
      { env := { env with
                 store := match r.session with
                          | some s' => storeSet env.store sender s'
                          | none => storePop env.store sender,
                 bookings := r.bookings },
        reply := r.reply }
    else intentDispatch now env sender msg normalized
  | none => intentDispatch now env sender msg normalized

/-- The whole webhook turn (app.py lines 437-798): expiry sweep first, then
owner commands, then active-flow dispatch, then the intent chain. Transport
extraction, interaction logging and outbound sending are external I/O and
carry no state read back by the handler. -/
def handle (now : Int) (env : Env) (sender rawMsg : Text) : Outcome :=
  let env := { env with store := clean_expired_states now env.store }
  let msg := pyStrip rawMsg
  let normalized := pyLower msg
  if sender == env.owner && pyStartsWith "report".toList normalized then
    { env := env, reply := .ownerReport }
  else if sender == env.owner && pyStartsWith "reviews".toList normalized then
    { env := env, reply := .ownerReviews (pyContains "today".toList normalized) }
  else
    flowOrIntent now env sender msg normalized


/-! ## Derived definitions and concrete sample values -/

/-- The text before the next occurrence of `sep` (all of `t` when `sep` does
not occur): the claim language's "segment up to the following marker". -/
def segmentTo (sep t : Text) : Text :=
  match splitFirst sep t with
  | none => t
  | some (a, _) => a

/-- The review parser restated with first-occurrence splits: the review part
is the segment of the lower-cased message between the first `review:` marker
and the next one (to the end when unique); within it, the body is the text
before the first `rating:` and the rating comes from the segment following
that marker (up to any further `rating:`). -/
def parseReviewAmended (message_text : Text) : Text × Option Int :=
  let lower := pyLower message_text
  match splitFirst revMarker lower with
  | none => (pyStrip message_text, none)
  | some (_, rem) =>
    let part := segmentTo revMarker rem
    match splitFirst ratMarker part with
    | none => (pyStrip part, none)
    | some (before, after) =>
      (pyStrip before, parseRating (pyStrip (segmentTo ratMarker after)))

/-- The review parser as the claim words it: split at the FIRST occurrence
of `review:` and treat everything after it as the remainder; if `rating:`
occurs in the remainder, the text before it is the body and the first
whitespace-delimited token after it is the rating. -/
def parseReviewClaim (message_text : Text) : Text × Option Int :=
  let lower := pyLower message_text
  match splitFirst revMarker lower with
  | none => (pyStrip message_text, none)
  | some (_, rem) =>
    match splitFirst ratMarker rem with
    | none => (pyStrip rem, none)
    | some (before, after) => (pyStrip before, parseRating (pyStrip after))

/-- An ASCII upper-case letter (code 65..90). -/
def asciiUpper (c : Char) : Bool := decide (65 ≤ c.toNat ∧ c.toNat ≤ 90)

/-- A booking-flow session at step 3 (people 4, date "today"). -/
def sampleStep3 : Session :=
  ⟨.booking, 3, some 4, some "today".toList, none, none, none, .parsed 0⟩

/-- The booking record that step 3 persists for `sampleStep3` and "7 pm". -/
def sampleBooking : Booking := ⟨"u".toList, 4, "today".toList, "7 pm".toList, 0⟩

/-- A session last updated at time 0 (fresh booking-flow session). -/
def staleSession : Session := freshSession .booking 1 none 0

/-- A session whose dict has no `"timestamp"` key. -/
def noTsSession : Session :=
  ⟨.cake, 1, none, none, none, none, none, .missing⟩

/-- A fresh booking-flow session at step 1. -/
def sampleStep1 : Session := freshSession .booking 1 none 0

/-- A fresh cake-flow session at step 1. -/
def sampleCake1 : Session := freshSession .cake 1 none 0

/-- The pre-existing booking that fills the "today, 7 pm" slot completely. -/
def fullBooking : Booking := ⟨"x".toList, 24, "Today ".toList, "7 PM".toList, 0⟩

/-- An environment with an active cake-flow session for sender "u". -/
def cakeEnv : Env := ⟨"owner".toList, [("u".toList, sampleCake1)], [], [], []⟩

/-- An environment with no active sessions. -/
def plainEnv : Env := ⟨"owner".toList, [], [], [], []⟩


/-! ## Lemmas about the text primitives -/

theorem isPrefixOf_self (l : Text) : l.isPrefixOf l = true := by
  simp [List.isPrefixOf_iff_prefix]

theorem pyContains_self (l : Text) : pyContains l l = true := by
  cases l with
  | nil => rfl
  | cons c rest => simp [pyContains, isPrefixOf_self]

theorem pyContains_eq_isSome (sep : Text) :
    ∀ l, pyContains sep l = (splitFirst sep l).isSome
  | [] => by
    cases h : sep.isPrefixOf ([] : Text) <;> simp [pyContains, splitFirst, h]
  | c :: rest => by
    cases h : sep.isPrefixOf (c :: rest) with
    | true => simp [pyContains, splitFirst, h]
    | false =>
      have ih := pyContains_eq_isSome sep rest
      cases hs : splitFirst sep rest with
      | none => simp [pyContains, splitFirst, h, ih, hs]
      | some ab => simp [pyContains, splitFirst, h, ih, hs]

theorem splitFirst_eq_append (sep : Text) :
    ∀ l a b, splitFirst sep l = some (a, b) → l = a ++ sep ++ b
  | [], a, b => by
    cases hp : sep.isPrefixOf ([] : Text) with
    | true =>
      intro h
      simp only [List.isPrefixOf_iff_prefix, List.prefix_nil] at hp
      simp [splitFirst, hp] at h
      obtain ⟨h1, h2⟩ := h
      subst h1; subst h2
      simp [hp]
    | false => intro h; simp [splitFirst, hp] at h
  | c :: rest, a, b => by
    cases hp : sep.isPrefixOf (c :: rest) with
    | true =>
      intro h
      simp only [splitFirst, hp, if_true] at h
      have hp' := hp
      simp only [List.isPrefixOf_iff_prefix] at hp'
      obtain ⟨t, ht⟩ := hp'
      simp at h
      obtain ⟨h1, h2⟩ := h
      subst h1; subst h2
      rw [← ht]
      simp [List.drop_left]
    | false =>
      intro h
      simp only [splitFirst, hp] at h
      cases hs : splitFirst sep rest with
      | none => rw [hs] at h; simp at h
      | some ab =>
        obtain ⟨a', b'⟩ := ab
        rw [hs] at h
        simp at h
        obtain ⟨h1, h2⟩ := h
        subst h1; subst h2
        have ih := splitFirst_eq_append sep rest a' b' hs
        simp [ih]

theorem sep_length_pos {sep : Text} (hsep : sep ≠ []) : 0 < sep.length :=
  List.length_pos.mpr hsep

theorem pySplitF_stable (sep : Text) (hsep : sep ≠ []) :
    ∀ n m l, l.length ≤ n → l.length ≤ m → pySplitF sep n l = pySplitF sep m l := by
  intro n
  induction n with
  | zero =>
    intro m l hn _
    have : l = [] := List.eq_nil_of_length_eq_zero (Nat.le_zero.mp hn)
    subst this
    cases m <;> rfl
  | succ n ih =>
    intro m l hn hm
    cases l with
    | nil => cases m <;> rfl
    | cons c rest =>
      cases m with
      | zero => simp at hm
      | succ m' =>
        have hsl := sep_length_pos hsep
        simp only [List.length_cons] at hn hm
        cases hp : sep.isPrefixOf (c :: rest) with
        | true =>
          have hd : ((c :: rest).drop sep.length).length ≤ n := by
            simp only [List.length_drop, List.length_cons]; omega
          have hd' : ((c :: rest).drop sep.length).length ≤ m' := by
            simp only [List.length_drop, List.length_cons]; omega
          simp [pySplitF, hp, ih m' _ hd hd']
        | false =>
          simp [pySplitF, hp, ih m' rest (by omega) (by omega)]

theorem pySplitF_ne_nil (sep : Text) : ∀ n l, pySplitF sep n l ≠ [] := by
  intro n l
  cases n with
  | zero => cases l <;> simp [pySplitF]
  | succ n =>
    cases l with
    | nil => simp [pySplitF]
    | cons c rest =>
      cases hp : sep.isPrefixOf (c :: rest) with
      | true => simp [pySplitF, hp]
      | false =>
        simp only [pySplitF, hp]
        cases pySplitF sep n rest <;> simp

theorem pySplit_ne_nil (sep l : Text) : pySplit sep l ≠ [] := pySplitF_ne_nil sep l.length l

theorem pySplitF_eq (sep : Text) (hsep : sep ≠ []) :
    ∀ l n, l.length ≤ n →
      pySplitF sep n l = (match splitFirst sep l with
                          | none => [l]
                          | some (a, b) => a :: pySplit sep b) := by
  intro l
  induction l with
  | nil =>
    intro n _
    have hp : sep.isPrefixOf ([] : Text) = false := by
      cases hb : sep.isPrefixOf ([] : Text)
      · rfl
      · simp only [List.isPrefixOf_iff_prefix, List.prefix_nil] at hb
        exact absurd hb hsep
    have hsf : splitFirst sep ([] : Text) = none := by simp [splitFirst, hp]
    cases n <;> simp [pySplitF, hsf]
  | cons c rest ih =>
    intro n hn
    cases n with
    | zero => simp at hn
    | succ n' =>
      have hsl := sep_length_pos hsep
      simp only [List.length_cons] at hn
      cases hp : sep.isPrefixOf (c :: rest) with
      | true =>
        have hst : pySplitF sep n' ((c :: rest).drop sep.length)
            = pySplit sep ((c :: rest).drop sep.length) := by
          apply pySplitF_stable sep hsep
          · simp only [List.length_drop, List.length_cons]; omega
          · exact Nat.le_refl _
        simp [pySplitF, splitFirst, hp, hst]
      | false =>
        have hih := ih n' (by omega)
        simp only [pySplitF, hp, Bool.false_eq_true, if_false, splitFirst]
        rw [hih]
        cases hs : splitFirst sep rest with
        | none => simp
        | some ab => obtain ⟨a', b'⟩ := ab; simp

theorem pySplit_eq (sep : Text) (hsep : sep ≠ []) (l : Text) :
    pySplit sep l = (match splitFirst sep l with
                     | none => [l]
                     | some (a, b) => a :: pySplit sep b) :=
  pySplitF_eq sep hsep l l.length (Nat.le_refl _)

theorem mem_pySplitF (sep : Text) :
    ∀ n l p, p ∈ pySplitF sep n l → ∀ c, c ∈ p → c ∈ l := by
  intro n
  induction n with
  | zero =>
    intro l p hp c hc
    cases l with
    | nil => simp [pySplitF] at hp; simp [hp] at hc
    | cons a rest => simp [pySplitF] at hp; rwa [hp] at hc
  | succ n ih =>
    intro l p hp c hc
    cases l with
    | nil => simp [pySplitF] at hp; simp [hp] at hc
    | cons a rest =>
      cases hpre : sep.isPrefixOf (a :: rest) with
      | true =>
        simp only [pySplitF, hpre, if_true] at hp
        cases hp with
        | head => simp at hc
        | tail _ hmem =>
          exact List.mem_of_mem_drop (ih _ p hmem c hc)
      | false =>
        simp only [pySplitF, hpre, Bool.false_eq_true, if_false] at hp
        cases hr : pySplitF sep n rest with
        | nil => exact absurd hr (pySplitF_ne_nil sep n rest)
        | cons s ss =>
          rw [hr] at hp
          cases hp with
          | head =>
            cases hc with
            | head => exact List.mem_cons_self _ _
            | tail _ hcs =>
              have hs : c ∈ rest :=
                ih rest s (by rw [hr]; exact List.mem_cons_self s ss) c hcs
              exact List.mem_cons_of_mem _ hs
          | tail _ hmem =>
            have hs : c ∈ rest :=
              ih rest p (by rw [hr]; exact List.mem_cons_of_mem s hmem) c hc
            exact List.mem_cons_of_mem _ hs

theorem mem_pySplit (sep l p : Text) (hp : p ∈ pySplit sep l) {c : Char}
    (hc : c ∈ p) : c ∈ l :=
  mem_pySplitF sep l.length l p hp c hc


theorem two_le_length_pySplit {sep l : Text} (hsep : sep ≠ [])
    (h : pyContains sep l = true) : 1 < (pySplit sep l).length := by
  rw [pyContains_eq_isSome] at h
  rw [pySplit_eq sep hsep l]
  cases hs : splitFirst sep l with
  | none => rw [hs] at h; simp at h
  | some ab =>
    obtain ⟨a, b⟩ := ab
    have hne := pySplit_ne_nil sep b
    have hlen := List.length_pos.mpr hne
    simp only [hs, List.length_cons]
    omega

theorem getD_zero_pySplit (sep : Text) (hsep : sep ≠ []) (l : Text) :
    (pySplit sep l).getD 0 [] = segmentTo sep l := by
  rw [pySplit_eq sep hsep l]
  cases hs : splitFirst sep l with
  | none => simp [segmentTo, hs]
  | some ab => obtain ⟨a, b⟩ := ab; simp [segmentTo, hs]

theorem getD_one_pySplit (sep : Text) (hsep : sep ≠ []) {l a b : Text}
    (hs : splitFirst sep l = some (a, b)) :
    (pySplit sep l).getD 1 [] = segmentTo sep b := by
  rw [pySplit_eq sep hsep l, hs]
  simpa using getD_zero_pySplit sep hsep b



theorem revMarker_ne_nil : revMarker ≠ ([] : Text) := by decide

theorem ratMarker_ne_nil : ratMarker ≠ ([] : Text) := by decide

theorem splitFirst_none_of_not_contains {sep l : Text}
    (h : pyContains sep l = false) : splitFirst sep l = none := by
  have he := pyContains_eq_isSome sep l
  rw [h] at he
  cases hs : splitFirst sep l with
  | none => rfl
  | some ab => rw [hs] at he; simp at he

theorem segmentTo_eq_of_splitFirst {sep t a b : Text}
    (h : splitFirst sep t = some (a, b)) : segmentTo sep t = a := by
  unfold segmentTo
  rw [h]

theorem parseReview_eq_amended (msg : Text) :
    parseReview msg = parseReviewAmended msg := by
  unfold parseReview parseReviewAmended
  cases hc : pyContains revMarker (pyLower msg) with
  | false =>
    simp [hc, splitFirst_none_of_not_contains hc]
  | true =>
    have hiss := pyContains_eq_isSome revMarker (pyLower msg)
    rw [hc] at hiss
    cases hs : splitFirst revMarker (pyLower msg) with
    | none => rw [hs] at hiss; simp at hiss
    | some ab =>
      obtain ⟨a0, rem⟩ := ab
      have hlen := two_le_length_pySplit revMarker_ne_nil hc
      have hgd1 := getD_one_pySplit revMarker revMarker_ne_nil hs
      simp only [hc, if_true, hs]
      rw [if_pos hlen, hgd1]
      cases hrc : pyContains ratMarker (segmentTo revMarker rem) with
      | false =>
        rw [splitFirst_none_of_not_contains hrc]
        simp
      | true =>
        have hiss2 := pyContains_eq_isSome ratMarker (segmentTo revMarker rem)
        rw [hrc] at hiss2
        cases hs2 : splitFirst ratMarker (segmentTo revMarker rem) with
        | none => rw [hs2] at hiss2; simp at hiss2
        | some ab2 =>
          obtain ⟨before, after⟩ := ab2
          have hgd0 : (pySplit ratMarker (segmentTo revMarker rem)).getD 0 []
              = before := by
            rw [getD_zero_pySplit ratMarker ratMarker_ne_nil]
            exact segmentTo_eq_of_splitFirst hs2
          have hgd1' := getD_one_pySplit ratMarker ratMarker_ne_nil hs2
          rw [if_pos rfl, hgd0, hgd1']


theorem char_toNat_ofNat_valid (n : Nat) (h : n < 55296) :
    (Char.ofNat n).toNat = n := by
  have hv : n.isValidChar := Or.inl h
  unfold Char.ofNat
  rw [dif_pos hv]
  rfl

theorem asciiUpper_toLower (c : Char) : asciiUpper (Char.toLower c) = false := by
  unfold Char.toLower
  by_cases h : c.toNat ≥ 65 ∧ c.toNat ≤ 90
  · rw [if_pos h]
    have h2 : (Char.ofNat (c.toNat + 32)).toNat = c.toNat + 32 :=
      char_toNat_ofNat_valid _ (by omega)
    simp [asciiUpper, h2]
    omega
  · rw [if_neg h]
    simp [asciiUpper]
    omega

theorem mem_pyLower_not_upper {t : Text} {c : Char} (h : c ∈ pyLower t) :
    asciiUpper c = false := by
  unfold pyLower at h
  obtain ⟨d, _, hd⟩ := List.mem_map.mp h
  rw [← hd]
  exact asciiUpper_toLower d

theorem mem_pyStrip {t : Text} {c : Char} (h : c ∈ pyStrip t) : c ∈ t := by
  unfold pyStrip at h
  rw [List.mem_reverse] at h
  have h2 := List.dropWhile_subset pyIsSpace h
  rw [List.mem_reverse] at h2
  exact List.dropWhile_subset pyIsSpace h2

theorem getD_mem_of_lt (l : List Text) (i : Nat) (h : i < l.length) :
    l.getD i [] ∈ l := by
  rw [List.getD_eq_getElem l [] h]
  exact List.getElem_mem h

theorem parseReview_body_mem_lower (msg : Text)
    (hmk : pyContains revMarker (pyLower msg) = true) :
    ∀ c ∈ (parseReview msg).1, c ∈ pyLower msg := by
  intro c hcmem
  have hlen := two_le_length_pySplit revMarker_ne_nil hmk
  have hrp : (pySplit revMarker (pyLower msg)).getD 1 []
      ∈ pySplit revMarker (pyLower msg) := getD_mem_of_lt _ 1 hlen
  unfold parseReview at hcmem
  simp only [hmk, if_true] at hcmem
  rw [if_pos hlen] at hcmem
  split at hcmem
  · have h1 := mem_pyStrip hcmem
    have h0len : 0 < (pySplit ratMarker
        ((pySplit revMarker (pyLower msg)).getD 1 [])).length :=
      List.length_pos.mpr (pySplit_ne_nil _ _)
    have h2 := getD_mem_of_lt (pySplit ratMarker
        ((pySplit revMarker (pyLower msg)).getD 1 [])) 0 h0len
    have h3 := mem_pySplit ratMarker _ _ h2 h1
    exact mem_pySplit revMarker (pyLower msg) _ hrp h3
  · have h1 := mem_pyStrip hcmem
    exact mem_pySplit revMarker (pyLower msg) _ hrp h1

theorem flavourLoop_some_of_any :
    ∀ (fs : List Text) (tl : Text),
      fs.any (fun f => pyContains (pyLower f) tl) = true →
      ∃ f, flavourLoop fs tl = some f ∧ f ∈ fs ∧ pyContains (pyLower f) tl = true := by
  intro fs
  induction fs with
  | nil => intro tl h; simp at h
  | cons f fs ih =>
    intro tl h
    cases hf : pyContains (pyLower f) tl with
    | true =>
      exact ⟨f, by simp [flavourLoop, hf], List.mem_cons_self _ _, hf⟩
    | false =>
      have h' : fs.any (fun g => pyContains (pyLower g) tl) = true := by
        simp only [List.any_cons, hf, Bool.false_or] at h
        exact h
      obtain ⟨g, hloop, hmem, hmatch⟩ := ih tl h'
      exact ⟨g, by simp [flavourLoop, hf, hloop], List.mem_cons_of_mem f hmem, hmatch⟩

theorem get_cake_flavour_spec {msg : Text} (h : is_cake_flavour msg = true) :
    get_cake_flavour_from_text msg ∈ CAKE_FLAVOURS ∧
    pyContains (pyLower (get_cake_flavour_from_text msg))
      (pyStrip (pyLower msg)) = true := by
  unfold is_cake_flavour at h
  obtain ⟨f, hloop, hmem, hmatch⟩ := flavourLoop_some_of_any CAKE_FLAVOURS _ h
  unfold get_cake_flavour_from_text
  rw [hloop]
  exact ⟨hmem, hmatch⟩

theorem flavourLoop_min :
    ∀ (fs : List Text) (tl : Text) (i : Nat) (hi : i < fs.length),
      pyContains (pyLower (fs.get ⟨i, hi⟩)) tl = true →
      ∃ j, ∃ hj : j < fs.length, j ≤ i ∧
        flavourLoop fs tl = some (fs.get ⟨j, hj⟩) ∧
        ∀ k, ∀ hk : k < fs.length, k < j →
          pyContains (pyLower (fs.get ⟨k, hk⟩)) tl = false := by
  intro fs
  induction fs with
  | nil => intro tl i hi; simp at hi
  | cons f fs ih =>
    intro tl i hi hmatch
    cases hf : pyContains (pyLower f) tl with
    | true =>
      refine ⟨0, by simp, Nat.zero_le i, by simp [flavourLoop, hf], ?_⟩
      intro k hk hk0
      omega
    | false =>
      cases i with
      | zero =>
        simp only [List.get] at hmatch
        rw [hmatch] at hf
        simp at hf
      | succ i' =>
        have hi' : i' < fs.length := by
          simp only [List.length_cons] at hi
          omega
        have hm' : pyContains (pyLower (fs.get ⟨i', hi'⟩)) tl = true := hmatch
        obtain ⟨j, hj, hji, hloop, hearlier⟩ := ih tl i' hi' hm'
        refine ⟨j + 1, by simp only [List.length_cons]; omega, by omega, ?_, ?_⟩
        · simp only [flavourLoop, hf, Bool.false_eq_true, if_false]
          rw [hloop]
          rfl
        · intro k hk hklt
          cases k with
          | zero => exact hf
          | succ k' =>
            have hk' : k' < fs.length := by
              simp only [List.length_cons] at hk
              omega
            exact hearlier k' hk' (by omega)

theorem seatSum_append (date time : Text) (l1 l2 : List Booking) :
    seatSum date time (l1 ++ l2)
      = seatSum date time l1 + seatSum date time l2 := by
  induction l1 with
  | nil => simp [seatSum]
  | cons b rest ih =>
    simp only [List.cons_append, seatSum, List.append_eq]
    rw [ih, Int.add_assoc]

theorem seatSum_singleton_self (cust : Text) (p : Int) (date time : Text)
    (ts : Int) : seatSum date time [⟨cust, p, date, time, ts⟩] = p := by
  simp [seatSum]

theorem contains_keywords_of_mem {t : Text} {kws : List Text}
    (h : kws.contains (pyLower t) = true) : contains_keywords t kws = true := by
  have hmem : pyLower t ∈ kws := by
    simpa using h
  unfold contains_keywords
  rw [List.any_eq_true]
  exact ⟨pyLower t, hmem, pyContains_self _⟩

theorem keyword_contains_false {t : Text} {kws : List Text}
    (h : contains_keywords t kws = false) : kws.contains (pyLower t) = false := by
  cases hc : kws.contains (pyLower t) with
  | false => rfl
  | true => rw [contains_keywords_of_mem hc] at h; exact absurd h (by simp)

theorem intent_number_elim {t : Text} (h : smart_intent_detection t = .number) :
    contains_keywords t BOOKING_KEYWORDS = false ∧
    contains_keywords t CAKE_KEYWORDS = false ∧
    contains_keywords t REVIEW_KEYWORDS = false ∧
    pyContains revMarker (pyStrip (pyLower t)) = false ∧
    is_number t = true := by
  unfold smart_intent_detection at h
  repeat' split at h
  all_goals simp_all

/-! ## Concrete sample values used in witnesses and counterexamples -/



/-! ## Claim theorems -/

/-- C1: after every successful booking persisted through the booking flow,
the party sizes of all stored bookings matching that booking's (date, time)
slot (case-insensitive, whitespace-trimmed) sum to at most TOTAL_SEATS (24):
the availability check against the existing bookings runs before
persistence, so a booking that would exceed the capacity is never saved. -/
theorem C1_booking_capacity (now : Int) (sender : Text) (s : Session)
    (msg : Text) (bookings : List Booking) (b : Booking)
    (hstep : s.step = 3)
    (hsave : (bookingStep now sender s msg bookings).bookings
      = bookings ++ [b]) :
    seatSum b.date b.time (bookingStep now sender s msg bookings).bookings
      ≤ TOTAL_SEATS := by
  have h1 : ¬(s.step = 1) := by rw [hstep]; decide
  have h2 : ¬(s.step = 2) := by rw [hstep]; decide
  rw [hsave]
  unfold bookingStep at hsave
  rw [if_neg h1, if_neg h2, if_pos hstep] at hsave
  simp only [check_table_availability] at hsave
  split at hsave
  · exfalso
    have hl := congrArg List.length hsave
    simp at hl
  · next hcond =>
    have hs2 : bookings ++ [(⟨sender, s.people.getD 0, s.date.getD [], msg,
        now⟩ : Booking)] = bookings ++ [b] := hsave
    have hb1 := List.append_cancel_left hs2
    have hb : (⟨sender, s.people.getD 0, s.date.getD [], msg, now⟩ : Booking)
        = b := by simpa using hb1
    have hav : decide ((s.people.getD 0)
        ≤ TOTAL_SEATS - seatSum (s.date.getD []) msg bookings) = true := by
      simpa using hcond
    have hple := of_decide_eq_true hav
    rw [← hb]
    show seatSum (s.date.getD []) msg
      (bookings ++ [(⟨sender, s.people.getD 0, s.date.getD [], msg,
        now⟩ : Booking)]) ≤ TOTAL_SEATS
    rw [seatSum_append, seatSum_singleton_self]
    omega

/-- Witness for C1 at a concrete input: step 3 with 4 people, empty booking
store; the booking is saved and the slot total stays within capacity. -/
theorem C1_booking_capacity_wit :
    (bookingStep 0 "u".toList sampleStep3 "7 pm".toList []).bookings
      = [] ++ [sampleBooking] ∧
    seatSum sampleBooking.date sampleBooking.time
      (bookingStep 0 "u".toList sampleStep3 "7 pm".toList []).bookings
      ≤ TOTAL_SEATS :=
  ⟨by decide, C1_booking_capacity 0 "u".toList sampleStep3 "7 pm".toList []
    sampleBooking (by decide) (by decide)⟩



/-- C2: the claim says a session whose last update lies more than 300 seconds
in the past (or whose timestamp is missing or unparseable) is removed by the
sweep before dispatch. The code computes `(now - updated_at).seconds`, the
sub-day component of the timedelta, so a session exactly one day old is NOT
removed although 86400 > 300; and a session with no timestamp key is never
removed. The sweep does work within the same day (a 400-second-old session
is removed), which shows the day wrap-around is the anomaly. -/
theorem C2_stale_session_kept :
    (86400 : Int) - 0 > USER_STATE_TIMEOUT ∧
    clean_expired_states 86400 [("u".toList, staleSession)]
      = [("u".toList, staleSession)] ∧
    lookupStore (clean_expired_states 86400 [("u".toList, staleSession)])
      "u".toList = some staleSession ∧
    clean_expired_states 86400 [("v".toList, noTsSession)]
      = [("v".toList, noTsSession)] ∧
    clean_expired_states 400 [("u".toList, staleSession)] = [] ∧
    (handle 86400 cakeEnv "u".toList "hi".toList).reply = .cakeAskCustom ∧
    (handle 401 cakeEnv "u".toList "hi".toList).reply = .mainMenu := by
  decide


/-- C3 counterexample: the claim says a step-1 message whose first digit
sequence parses to an integer above 50 leaves the flow at step 1; but on
"51" the code stores 51 people and advances to step 2. -/
theorem C3_over_fifty_cx :
    (50 : Int) < 51 ∧
    (bookingStep 0 "u".toList sampleStep1 "51".toList []).session.map
      Session.step = some 2 ∧
    ((bookingStep 0 "u".toList sampleStep1 "51".toList []).session.bind
      Session.people) = some 51 ∧
    ¬((bookingStep 0 "u".toList sampleStep1 "51".toList []).session.map
      Session.step = some 1) := by
  decide

/-- C3 (amended): at booking step 1, a message with no digit sequence, or
whose parsed count is ≤ 0, leaves the session unchanged at step 1 with a
re-prompt and appends no booking; any message whose parsed count is positive
(with NO upper bound — the code has no 50 cap) stores the count and advances
to step 2, also appending no booking. -/
theorem C3_step1_parse (now : Int) (sender : Text) (s : Session) (msg : Text)
    (bookings : List Booking) (hstep : s.step = 1) :
    (∀ n, parsePeople msg = some n → 0 < n →
      bookingStep now sender s msg bookings
        = { session :=
              some { s with people := some n, step := 2, timestamp := .parsed now },
            bookings := bookings, reply := .bookingAskDate n }) ∧
    ((parsePeople msg = none ∨ ∃ n, parsePeople msg = some n ∧ n ≤ 0) →
      bookingStep now sender s msg bookings
        = ⟨some s, bookings, .bookingRetryPeople⟩) := by
  constructor
  · intro n hp hpos
    unfold bookingStep
    rw [if_pos hstep]
    simp only [hp]
    rw [if_pos hpos]
  · intro hbad
    unfold bookingStep
    rw [if_pos hstep]
    rcases hbad with hnone | ⟨n, hsome, hle⟩
    · simp only [hnone]
    · simp only [hsome]
      rw [if_neg (by omega)]

/-- Witness for C3 (amended) at concrete inputs: "4 people" is accepted with
count 4, and "lots of us" is re-prompted with the session unchanged. -/
theorem C3_step1_parse_wit :
    sampleStep1.step = 1 ∧
    parsePeople "4 people".toList = some 4 ∧
    bookingStep 7 "u".toList sampleStep1 "4 people".toList []
      = { session :=
            some { sampleStep1 with people := some 4, step := 2, timestamp := .parsed 7 },
          bookings := [], reply := .bookingAskDate 4 } ∧
    bookingStep 7 "u".toList sampleStep1 "lots of us".toList []
      = ⟨some sampleStep1, [], .bookingRetryPeople⟩ :=
  ⟨by decide, by decide,
    (C3_step1_parse 7 "u".toList sampleStep1 "4 people".toList []
      (by decide)).1 4 (by decide) (by decide),
    (C3_step1_parse 7 "u".toList sampleStep1 "lots of us".toList []
      (by decide)).2 (Or.inl (by decide))⟩

/-- C7: when the availability check fails at booking step 3, the reply
carries exactly the remaining seats for the slot (total capacity minus the
matched seat sum), the bookings collection is returned unchanged (no record
appended), and the session is cleared. -/
theorem C7_unavailable_no_save (now : Int) (sender : Text) (s : Session)
    (msg : Text) (bookings : List Booking)
    (hstep : s.step = 3)
    (hun : (check_table_availability (s.date.getD []) msg (s.people.getD 0)
      bookings).1 = false) :
    bookingStep now sender s msg bookings
      = ⟨none, bookings,
         .bookingUnavailable (s.people.getD 0) msg (s.date.getD [])
           (TOTAL_SEATS - seatSum (s.date.getD []) msg bookings)⟩ := by
  have h1 : ¬(s.step = 1) := by rw [hstep]; decide
  have h2 : ¬(s.step = 2) := by rw [hstep]; decide
  have hun' : decide ((s.people.getD 0)
      ≤ TOTAL_SEATS - seatSum (s.date.getD []) msg bookings) = false := hun
  unfold bookingStep
  rw [if_neg h1, if_neg h2, if_pos hstep]
  simp [check_table_availability, hun']


/-- Witness for C7 at a concrete input: with 24 seats already matched for
the slot (under case-insensitive trimmed comparison), a request for 4 is
rejected, nothing is appended, the session is cleared and the reply carries
the remaining 0 seats. -/
theorem C7_unavailable_no_save_wit :
    sampleStep3.step = 3 ∧
    (check_table_availability "today".toList "7 pm".toList 4
      [fullBooking]).1 = false ∧
    bookingStep 9 "u".toList sampleStep3 "7 pm".toList [fullBooking]
      = ⟨none, [fullBooking],
         .bookingUnavailable 4 "7 pm".toList "today".toList
           (TOTAL_SEATS - seatSum "today".toList "7 pm".toList
             [fullBooking])⟩ :=
  ⟨by decide, by decide,
    C7_unavailable_no_save 9 "u".toList sampleStep3 "7 pm".toList
      [fullBooking] (by decide) (by decide)⟩

theorem cakeStep1_flavour (now : Int) (sender : Text) (s : Session)
    (msg : Text) (cakes : List CakeOrder) (hstep : s.step = 1) :
    (cakeStep now sender s msg cakes).session.bind Session.flavour
      = some (if is_cake_flavour msg then get_cake_flavour_from_text msg
              else pyTitle msg) := by
  unfold cakeStep
  rw [if_pos hstep]
  rfl

/-- C8: cake step 1 never rejects: the flow always advances to step 2 with a
flavour stored and the cake collection untouched; when the message contains
(case-insensitively) a flavour of the fixed vocabulary, a vocabulary entry
matching the message is stored, otherwise the title-cased message text
itself is stored. -/
theorem C8_cake_step1 (now : Int) (sender : Text) (s : Session) (msg : Text)
    (cakes : List CakeOrder) (hstep : s.step = 1) :
    ∃ flv,
      cakeStep now sender s msg cakes
        = { session :=
              some { s with flavour := some flv, step := 2, timestamp := .parsed now },
            cakes := cakes, reply := .cakeAskCustom } ∧
      (is_cake_flavour msg = true →
        flv ∈ CAKE_FLAVOURS ∧
        pyContains (pyLower flv) (pyStrip (pyLower msg)) = true) ∧
      (is_cake_flavour msg = false → flv = pyTitle msg) := by
  refine ⟨if is_cake_flavour msg then get_cake_flavour_from_text msg
          else pyTitle msg, ?_, ?_, ?_⟩
  · unfold cakeStep
    rw [if_pos hstep]
  · intro h
    rw [if_pos h]
    exact get_cake_flavour_spec h
  · intro h
    rw [if_neg (by simp [h])]


/-- Witness for C8 at a concrete input: "I want OREO please" matches the
vocabulary, so a matching vocabulary entry is stored and step 2 is reached. -/
theorem C8_cake_step1_wit :
    sampleCake1.step = 1 ∧
    (∃ flv,
      cakeStep 2 "u".toList sampleCake1 "I want OREO please".toList []
        = { session :=
              some { sampleCake1 with flavour := some flv, step := 2, timestamp := .parsed 2 },
            cakes := [], reply := .cakeAskCustom } ∧
      (is_cake_flavour "I want OREO please".toList = true →
        flv ∈ CAKE_FLAVOURS ∧
        pyContains (pyLower flv)
          (pyStrip (pyLower "I want OREO please".toList)) = true) ∧
      (is_cake_flavour "I want OREO please".toList = false →
        flv = pyTitle "I want OREO please".toList)) :=
  ⟨by decide,
    C8_cake_step1 2 "u".toList sampleCake1 "I want OREO please".toList []
      (by decide)⟩

/-- C10: when a cake-flow step-1 message matches (case-insensitive substring)
a vocabulary flavour at position i, the stored flavour is a vocabulary entry
at some position j ≤ i such that every vocabulary entry before j fails to
match: the earliest match in CAKE_FLAVOURS order wins, independent of where
the flavours appear in the message text. -/
theorem C10_vocab_order (now : Int) (sender : Text) (s : Session) (msg : Text)
    (cakes : List CakeOrder) (i : Nat) (hi : i < CAKE_FLAVOURS.length)
    (hstep : s.step = 1)
    (hmatch : pyContains (pyLower (CAKE_FLAVOURS.get ⟨i, hi⟩))
      (pyStrip (pyLower msg)) = true) :
    ∃ j, ∃ hj : j < CAKE_FLAVOURS.length, j ≤ i ∧
      ((cakeStep now sender s msg cakes).session.bind Session.flavour
        = some (CAKE_FLAVOURS.get ⟨j, hj⟩)) ∧
      (∀ k, ∀ hk : k < CAKE_FLAVOURS.length, k < j →
        pyContains (pyLower (CAKE_FLAVOURS.get ⟨k, hk⟩))
          (pyStrip (pyLower msg)) = false) := by
  obtain ⟨j, hj, hji, hloop, hearlier⟩ :=
    flavourLoop_min CAKE_FLAVOURS _ i hi hmatch
  have hic : is_cake_flavour msg = true := by
    unfold is_cake_flavour
    rw [List.any_eq_true]
    exact ⟨CAKE_FLAVOURS.get ⟨i, hi⟩, List.get_mem _ _ _, hmatch⟩
  refine ⟨j, hj, hji, ?_, hearlier⟩
  rw [cakeStep1_flavour now sender s msg cakes hstep, if_pos hic]
  unfold get_cake_flavour_from_text
  rw [hloop]

/-- Witness for C10 at a concrete input: in "oreo chocolate", Oreo appears
first in the message but Chocolate is earliest in the vocabulary (index 0),
so "Chocolate" is stored. -/
theorem C10_vocab_order_wit :
    sampleCake1.step = 1 ∧
    pyContains (pyLower (CAKE_FLAVOURS.get ⟨0, by decide⟩))
      (pyStrip (pyLower "oreo chocolate".toList)) = true ∧
    (∃ j, ∃ hj : j < CAKE_FLAVOURS.length, j ≤ 0 ∧
      ((cakeStep 2 "u".toList sampleCake1 "oreo chocolate".toList
        []).session.bind Session.flavour
        = some (CAKE_FLAVOURS.get ⟨j, hj⟩)) ∧
      (∀ k, ∀ hk : k < CAKE_FLAVOURS.length, k < j →
        pyContains (pyLower (CAKE_FLAVOURS.get ⟨k, hk⟩))
          (pyStrip (pyLower "oreo chocolate".toList)) = false)) :=
  ⟨by decide, by decide,
    C10_vocab_order 2 "u".toList sampleCake1 "oreo chocolate".toList []
      0 (by decide) (by decide) (by decide)⟩

/-- C9: for every message containing the marker `review:` in any letter
case, the stored review body contains no ASCII upper-case character — it is
entirely lower-case even when the original message had capitals — because
save_review splits the lower-cased copy of the message. -/
theorem C9_review_body_lowercase (sender msg : Text) (now : Int)
    (reviews : List Review)
    (hmk : pyContains revMarker (pyLower msg) = true) :
    ∀ c ∈ ((save_review sender msg now reviews).1).review,
      asciiUpper c = false := by
  intro c hc
  exact mem_pyLower_not_upper (parseReview_body_mem_lower msg hmk c hc)

/-- Witness for C9 at a concrete input with capitals in marker and body. -/
theorem C9_review_body_lowercase_wit :
    pyContains revMarker
      (pyLower "Review: GREAT Coffee rating: 5".toList) = true ∧
    ∀ c ∈ ((save_review "u".toList "Review: GREAT Coffee rating: 5".toList
      3 []).1).review, asciiUpper c = false :=
  ⟨by decide,
    C9_review_body_lowercase "u".toList
      "Review: GREAT Coffee rating: 5".toList 3 [] (by decide)⟩

/-- C6 counterexample: the claim splits at the FIRST occurrence of `review:`
and looks for `rating:` in everything after it. On
"review: nice review: rating: 5" that reading stores body "nice review:"
with rating 5, but the code (Python `str.split`, which cuts at EVERY
occurrence and takes `parts[1]`) stores body "nice" with no rating. -/
theorem C6_first_split_cx :
    parseReviewClaim "review: nice review: rating: 5".toList
      = ("nice review:".toList, some 5) ∧
    parseReview "review: nice review: rating: 5".toList
      = ("nice".toList, none) ∧
    parseReviewClaim "review: nice review: rating: 5".toList
      ≠ parseReview "review: nice review: rating: 5".toList := by
  decide

/-- C6 (amended): the review part is the segment of the lower-cased message
between the first `review:` occurrence and the next one (to the end when it
occurs once); within it, the body is the text before the first `rating:` and
the rating is parsed from the first whitespace token of the segment after it
(up to any further `rating:`), discarded unless within 1..5; with no
`review:` marker the whole stripped message is the body with no rating; and
the record is always appended to the review collection. -/
theorem C6_review_parse_amended (sender msg : Text) (now : Int)
    (reviews : List Review) :
    (save_review sender msg now reviews).2
      = reviews ++ [(save_review sender msg now reviews).1] ∧
    (save_review sender msg now reviews).1.review
      = (parseReviewAmended msg).1 ∧
    (save_review sender msg now reviews).1.rating
      = (parseReviewAmended msg).2 := by
  refine ⟨rfl, ?_, ?_⟩ <;> rw [← parseReview_eq_amended] <;> rfl

theorem handle_to_intentDispatch (now : Int) (env : Env) (sender rawMsg : Text)
    (howner : (sender == env.owner) = false)
    (hlook : lookupStore (clean_expired_states now env.store) sender = none) :
    handle now env sender rawMsg
      = intentDispatch now { env with store := clean_expired_states now env.store }
          sender (pyStrip rawMsg) (pyLower (pyStrip rawMsg)) := by
  unfold handle flowOrIntent
  simp only [howner, Bool.false_and, Bool.false_eq_true, if_false, hlook]

theorem intentDispatch_cancel_of (now : Int) (env : Env) (sender msg normalized : Text)
    (h1 : (decide (smart_intent_detection msg = Intent.booking)
      || BOOKING_KEYWORDS.contains normalized) = false)
    (h2 : (decide (smart_intent_detection msg = Intent.cake)
      || CAKE_KEYWORDS.contains normalized) = false)
    (h3 : decide (smart_intent_detection msg = Intent.number) = false)
    (h4 : (decide (smart_intent_detection msg = Intent.review)
      || pyContains revMarker normalized) = false)
    (h5 : (decide (smart_intent_detection msg = Intent.menu_category)
      || MENU_KEYS.contains normalized) = false)
    (h6 : GREETINGS.contains normalized = false)
    (h7 : ¬(normalized = "2".toList))
    (h8 : ¬(normalized = "3".toList))
    (h9 : HOURS_TOKENS.contains normalized = false)
    (h10 : LOCATION_TOKENS.contains normalized = false)
    (h11 : ¬(normalized = "6".toList))
    (h12 : CANCEL_TOKENS.contains normalized = true)
    (hlook : lookupStore env.store sender = none) :
    intentDispatch now env sender msg normalized
      = { env := env, reply := .cancelledIdle } := by
  unfold intentDispatch
  simp only [h1, h2, h3, h4, h5, h6, h7, h8, h9, h10, h11, h12, hlook,
    Bool.false_and, Bool.false_eq_true, if_false, if_true, Option.isSome_none]



/-- C5 counterexample: the claim says a cancellation keyword clears ANY
active session, whatever flow and step it was in, and shows the main menu.
But with an active cake flow at step 1, "cancel" is consumed as the flavour:
the session survives (advanced to step 2 with flavour "Cancel") and the
reply is the flavour-customization prompt, not the main menu. -/
theorem C5_cancel_in_flow_cx :
    pyStrip "cancel".toList ∈ CANCEL_TOKENS ∧
    (lookupStore (handle 0 cakeEnv "u".toList "cancel".toList).env.store
      "u".toList).isSome = true ∧
    ((lookupStore (handle 0 cakeEnv "u".toList "cancel".toList).env.store
      "u".toList).map Session.step = some 2) ∧
    ((lookupStore (handle 0 cakeEnv "u".toList "cancel".toList).env.store
      "u".toList).bind Session.flavour = some "Cancel".toList) ∧
    (handle 0 cakeEnv "u".toList "cancel".toList).reply = .cakeAskCustom ∧
    (handle 0 cakeEnv "u".toList "cancel".toList).reply ≠ .mainMenu := by
  decide

/-- C5 (amended): a cancellation keyword is dispatched by the intent chain
only when the sender has no active cake/booking session (an active flow
consumes the message as step input instead); in that no-session case the
store is left unchanged (nothing to clear) and the reply is a short
cancellation acknowledgement inviting 'menu' — not the main menu itself. -/
theorem C5_cancel_idle (now : Int) (env : Env) (sender rawMsg : Text)
    (howner : (sender == env.owner) = false)
    (hlook : lookupStore (clean_expired_states now env.store) sender = none)
    (hmsg : pyStrip rawMsg ∈ CANCEL_TOKENS) :
    handle now env sender rawMsg
      = { env := { env with store := clean_expired_states now env.store },
          reply := .cancelledIdle } := by
  rw [handle_to_intentDispatch now env sender rawMsg howner hlook]
  simp only [CANCEL_TOKENS, List.map_cons, List.map_nil, List.mem_cons,
    List.not_mem_nil, or_false] at hmsg
  rcases hmsg with hs | hs | hs | hs <;>
    rw [hs] <;>
    exact intentDispatch_cancel_of now _ sender _ _ (by decide) (by decide)
      (by decide) (by decide) (by decide) (by decide) (by decide) (by decide)
      (by decide) (by decide) (by decide) (by decide) hlook

/-- Witness for C5 (amended) at a concrete input: " cancel " from a sender
with no session leaves the store empty and acknowledges the cancellation. -/
theorem C5_cancel_idle_wit :
    ("u".toList == plainEnv.owner) = false ∧
    lookupStore (clean_expired_states 0 plainEnv.store) "u".toList = none ∧
    pyStrip " cancel ".toList ∈ CANCEL_TOKENS ∧
    handle 0 plainEnv "u".toList " cancel ".toList
      = { env := { plainEnv with store := clean_expired_states 0 plainEnv.store },
          reply := .cancelledIdle } :=
  ⟨by decide, by decide, by decide,
    C5_cancel_idle 0 plainEnv "u".toList " cancel ".toList (by decide)
      (by decide) (by decide)⟩

theorem intentDispatch_number (now : Int) (env : Env) (sender msg normalized : Text)
    (hintent : smart_intent_detection msg = Intent.number)
    (hbkc : BOOKING_KEYWORDS.contains normalized = false)
    (hckc : CAKE_KEYWORDS.contains normalized = false)
    (hlook : lookupStore env.store sender = none) :
    intentDispatch now env sender msg normalized
      = (if 0 < (pyInt msg).getD 0 && (pyInt msg).getD 0 ≤ 20 then
           { env := { env with store := (storeSet env.store sender
               (freshSession .booking 2 (some ((pyInt msg).getD 0)) now)) },
             reply := .bookingAskDate ((pyInt msg).getD 0) }
         else { env := env, reply := .numberClarify }) := by
  unfold intentDispatch
  simp only [hintent, hbkc, hckc, hlook,
    (by decide : decide (Intent.number = Intent.booking) = false),
    (by decide : decide (Intent.number = Intent.cake) = false),
    (by decide : decide (Intent.number = Intent.number) = true),
    Option.isNone_none, decide_True, Bool.true_and, Bool.and_self,
    Bool.false_or, Bool.false_eq_true, if_false, if_true]

/-- C4 counterexample: the claim says a free-standing integer from a sender
with no session enters a `confirm_booking` sub-flow awaiting a yes/no
confirmation before the booking flow begins. But on "4" the code starts the
booking flow directly at step 2 (the date prompt) with the count stored —
no confirm_booking state exists and no confirmation is awaited. -/
theorem C4_number_no_confirm_cx :
    ((lookupStore (handle 0 plainEnv "u".toList "4".toList).env.store
      "u".toList).map Session.flow = some FlowTag.booking) ∧
    ((lookupStore (handle 0 plainEnv "u".toList "4".toList).env.store
      "u".toList).map Session.step = some 2) ∧
    ¬((lookupStore (handle 0 plainEnv "u".toList "4".toList).env.store
      "u".toList).map Session.flow = some FlowTag.confirm_booking) ∧
    (handle 0 plainEnv "u".toList "4".toList).reply = .bookingAskDate 4 := by
  decide

/-- C4 (amended): a free-standing integer n from a sender with no active
session starts the booking flow DIRECTLY (no confirm_booking sub-flow exists
in the code): for 1 ≤ n ≤ 20 the flow begins pre-seeded at step 2 with
people = n and the date prompt as reply; for n outside that range a
clarification reply is sent and no session is created. -/
theorem C4_number_preseed (now : Int) (env : Env) (sender rawMsg : Text)
    (howner : (sender == env.owner) = false)
    (hlook : lookupStore (clean_expired_states now env.store) sender = none)
    (hintent : smart_intent_detection (pyStrip rawMsg) = Intent.number) :
    (0 < (pyInt (pyStrip rawMsg)).getD 0 ∧ (pyInt (pyStrip rawMsg)).getD 0 ≤ 20 →
      handle now env sender rawMsg
        = { env := { env with store := (storeSet
              (clean_expired_states now env.store) sender
              (freshSession .booking 2 (some ((pyInt (pyStrip rawMsg)).getD 0)) now)) },
            reply := .bookingAskDate ((pyInt (pyStrip rawMsg)).getD 0) }) ∧
    (¬(0 < (pyInt (pyStrip rawMsg)).getD 0 ∧ (pyInt (pyStrip rawMsg)).getD 0 ≤ 20) →
      handle now env sender rawMsg
        = { env := { env with store := clean_expired_states now env.store },
            reply := .numberClarify }) := by
  obtain ⟨hbk, hck, _, _, _⟩ := intent_number_elim hintent
  have hred := handle_to_intentDispatch now env sender rawMsg howner hlook
  rw [intentDispatch_number now _ sender _ _ hintent
    (keyword_contains_false hbk) (keyword_contains_false hck) hlook] at hred
  constructor
  · intro hn
    rw [hred, if_pos (by simp [hn.1, hn.2])]
  · intro hn
    rw [hred, if_neg ?hc]
    case hc =>
      intro hcond
      simp only [Bool.and_eq_true, decide_eq_true_eq] at hcond
      exact hn hcond

/-- Witness for C4 (amended) at a concrete input: "4" (which is a bare
number and in range) starts the booking flow at step 2 with people = 4. -/
theorem C4_number_preseed_wit :
    ("u".toList == plainEnv.owner) = false ∧
    lookupStore (clean_expired_states 0 plainEnv.store) "u".toList = none ∧
    smart_intent_detection (pyStrip "4".toList) = Intent.number ∧
    (0 : Int) < (pyInt (pyStrip "4".toList)).getD 0 ∧
    (pyInt (pyStrip "4".toList)).getD 0 ≤ 20 ∧
    handle 0 plainEnv "u".toList "4".toList
      = { env := { plainEnv with store := (storeSet
            (clean_expired_states 0 plainEnv.store) "u".toList
            (freshSession .booking 2 (some 4) 0)) },
          reply := .bookingAskDate 4 } :=
  ⟨by decide, by decide, by decide, by decide, by decide,
    (C4_number_preseed 0 plainEnv "u".toList "4".toList (by decide)
      (by decide) (by decide)).1 ⟨by decide, by decide⟩⟩
